import Mathlib

/-!
Shallow embedding of the knowledge-graph engine of the social-content
platform: the property-graph store, its scoring algorithms (trending,
recommendation, user similarity), topic-node EMA updates, the attention
tracker, the feed cursor and the engagement metrics, translated from the
Python source (`src/services/knowledge_graph.py`, `src/knowledge/graph.py`,
`src/knowledge/nodes.py`, `src/feedback/attention.py`,
`src/feedback/metrics.py`, `src/interface/feed.py`).

Numbers are rationals; Python dicts keyed by node id are insertion-ordered
association lists; `sorted(..., key=score, reverse=True)` is the stable
descending sort `List.insertionSort` on the score projection; clocks and
timestamps are explicit rational parameters.
-/

namespace KGSpec

/-- Association-list lookup with default `0`, mirroring Python
`scores.get(key, 0)`. -/
def lookupD (l : List (String × ℚ)) (k : String) : ℚ :=
  match l with
  | [] => 0
  | (k', v) :: rest => if k' = k then v else lookupD rest k

/-- Mirrors `scores[key] = scores.get(key, 0) + d` on an insertion-ordered
Python dict: the entry is updated in place when present and appended at the
end otherwise. -/
def bump (k : String) (d : ℚ) : List (String × ℚ) → List (String × ℚ)
  | [] => [(k, d)]
  | (k', v) :: rest =>
    if k' = k then (k', v + d) :: rest else (k', v) :: bump k d rest

/-- The body shared by every scoring loop of the source: when the guard
holds, add an amount to the dict entry of the selected key. -/
def bumpStep (cond : α → Bool) (key : α → String) (amt : α → ℚ)
    (acc : List (String × ℚ)) (x : α) : List (String × ℚ) :=
  if cond x then bump (key x) (amt x) acc else acc

/-- Descending order on the score component, the sort key of
`sorted(scores.items(), key=lambda x: x[1], reverse=True)`. -/
def scoreGE (a b : String × ℚ) : Prop := b.2 ≤ a.2

instance : DecidableRel scoreGE := fun a b => inferInstanceAs (Decidable (b.2 ≤ a.2))

instance : IsTotal (String × ℚ) scoreGE := ⟨fun a b => le_total b.2 a.2⟩

instance : IsTrans (String × ℚ) scoreGE := ⟨fun _ _ _ h1 h2 => le_trans h2 h1⟩

/-- Python `sorted(..., key=lambda x: x[1], reverse=True)`: a stable sort
putting higher scores first and keeping equal-score entries in their
original (dict-insertion) order, which is exactly insertion sort with the
reflexive descending comparison. -/
def sortDesc (l : List (String × ℚ)) : List (String × ℚ) :=
  List.insertionSort scoreGE l

/-- A node of the service graph (`KnowledgeGraphService`): its id, its
`node_type` string and the two engagement counters read (with default 0) by
the recommendation popularity term. -/
structure KGNode where
  id : String
  node_type : String
  like_count : ℚ
  view_count : ℚ
deriving DecidableEq

/-- A directed typed edge of the service graph. -/
structure KGEdge where
  source_id : String
  target_id : String
  edge_type : String
deriving DecidableEq

/-- The `networkx.DiGraph` held by `KnowledgeGraphService`: node list and
edge list in insertion order (a `DiGraph` stores at most one edge per
ordered pair, and iterates nodes, successors and predecessors in insertion
order). -/
structure KGraph where
  nodes : List KGNode
  edges : List KGEdge
deriving DecidableEq

/-- Membership test `node_id in self.graph.nodes`. -/
def hasNode (G : KGraph) (v : String) : Bool :=
  G.nodes.any (fun n => n.id == v)

/-- Iteration `self.graph.out_edges(v, data=True)` in insertion order. -/
def out_edges (G : KGraph) (v : String) : List KGEdge :=
  G.edges.filter (fun e => e.source_id == v)

/-- Iteration `self.graph.in_edges(v, data=True)` in insertion order. -/
def in_edges (G : KGraph) (v : String) : List KGEdge :=
  G.edges.filter (fun e => e.target_id == v)

/-- The `networkx` behaviour of `add_node`/`add_edge` on a missing node id:
the node is created implicitly with an empty attribute dict, modelled here
as an empty `node_type` and zero counters. -/
def nxEnsureNode (G : KGraph) (v : String) : KGraph :=
  if hasNode G v then G else { G with nodes := G.nodes ++ [⟨v, "", 0, 0⟩] }

/-- `KnowledgeGraphService.add_edge`, which calls `networkx` `add_edge`
directly: both endpoints are created implicitly when missing, and the edge
attribute dict for the ordered pair is set (replacing an existing edge on
the same pair, appending a fresh one otherwise). There is no endpoint
validation and no error path in the source. -/
def add_edge (G : KGraph) (e : KGEdge) : KGraph :=
  let G1 := nxEnsureNode (nxEnsureNode G e.source_id) e.target_id
  let replace : KGEdge → KGEdge :=
    fun d => if d.source_id == e.source_id && d.target_id == e.target_id then e else d
  if G1.edges.any (fun d => d.source_id == e.source_id && d.target_id == e.target_id) then
    { G1 with edges := G1.edges.map replace }
  else
    { G1 with edges := G1.edges ++ [e] }

/-- State of the second graph API (`KnowledgeGraph` in
`src/knowledge/graph.py`): a `relationships` dict keyed by relationship id
next to the `networkx` graph. Only the parts touched by
`add_relationship` are modelled. -/
structure KnowledgeGraphState where
  graph : KGraph
  relationships : List (String × KGEdge)
deriving DecidableEq

/-- `KnowledgeGraph.add_relationship`: stores the relationship in the dict
and adds the edge to the `networkx` graph, again without any endpoint
validation — missing endpoints are created implicitly by `networkx`. -/
def add_relationship (S : KnowledgeGraphState) (rel_id : String) (e : KGEdge) :
    KnowledgeGraphState :=
  { graph := add_edge S.graph e
    relationships := S.relationships ++ [(rel_id, e)] }

/-- The single pass of `get_similar_users`/`get_recommended_content` that
collects the targets of the out-edges of a user carrying one edge type
(the sets `interests`, `liked_content`, `followed_users`). -/
def outTargets (G : KGraph) (user_id ty : String) : List String :=
  ((out_edges G user_id).filter (fun e => e.edge_type == ty)).map (fun e => e.target_id)

/-- Candidate scoring of `KnowledgeGraphService.get_similar_users`: +1 per
incoming LIKES edge on a co-liked content, +2 per incoming INTEREST_IN edge
on a shared interest target, +0.5 per FOLLOWS edge out of a followed user,
accumulated into the insertion-ordered `user_scores` dict in the loop order
of the source. -/
def similar_user_scores (G : KGraph) (user_id : String) : List (String × ℚ) :=
  let liked_content := outTargets G user_id "LIKES"
  let interests := outTargets G user_id "INTEREST_IN"
  let followed_users := outTargets G user_id "FOLLOWS"
  let s1 := (liked_content.flatMap (fun c => in_edges G c)).foldl
    (bumpStep (fun e => e.source_id != user_id && e.edge_type == "LIKES")
      (fun e => e.source_id) (fun _ => 1)) []
  let s2 := (interests.flatMap (fun i => in_edges G i)).foldl
    (bumpStep (fun e => e.source_id != user_id && e.edge_type == "INTEREST_IN")
      (fun e => e.source_id) (fun _ => 2)) s1
  (followed_users.flatMap (fun f => out_edges G f)).foldl
    (bumpStep (fun e => e.target_id != user_id && e.edge_type == "FOLLOWS")
      (fun e => e.target_id) (fun _ => 1/2)) s2

/-- `KnowledgeGraphService.get_similar_users`: empty for an unknown user,
otherwise the score dict sorted by score descending (stable) and truncated
to `limit`. -/
def get_similar_users (G : KGraph) (user_id : String) (limit : ℕ) : List (String × ℚ) :=
  if hasNode G user_id then (sortDesc (similar_user_scores G user_id)).take limit else []

/-- The `seen_content` set of `get_recommended_content`: targets of the
VIEWS and LIKES out-edges of the user when `exclude_seen` is set. -/
def seenContent (G : KGraph) (user_id : String) (exclude_seen : Bool) : List String :=
  if exclude_seen then
    ((out_edges G user_id).filter
      (fun e => e.edge_type == "VIEWS" || e.edge_type == "LIKES")).map (fun e => e.target_id)
  else []

/-- The `content_scores` dict built by
`KnowledgeGraphService.get_recommended_content`: +3 per CREATED_BY out-edge
of a followed user (the source scans `out_edges(followed_id)` for
CREATED_BY), +2 per unseen HAS_TAG in-edge on an interest target,
+similarity × 0.5 per LIKES out-edge of each of the top-20 similar users,
and the popularity term 0.1 × (1 + like_count/(view_count+1)) for every
unseen CONTENT node. -/
def content_scores (G : KGraph) (user_id : String) (exclude_seen : Bool) :
    List (String × ℚ) :=
  let seen := seenContent G user_id exclude_seen
  let interests := outTargets G user_id "INTEREST_IN"
  let followed_users := outTargets G user_id "FOLLOWS"
  let s1 := (followed_users.flatMap (fun f => out_edges G f)).foldl
    (bumpStep (fun e => e.edge_type == "CREATED_BY" && !(seen.contains e.target_id))
      (fun e => e.target_id) (fun _ => 3)) []
  let s2 := (interests.flatMap (fun i => in_edges G i)).foldl
    (bumpStep (fun e => e.edge_type == "HAS_TAG" && !(seen.contains e.source_id))
      (fun e => e.source_id) (fun _ => 2)) s1
  let sims := get_similar_users G user_id 20
  let s3 := (sims.flatMap (fun p => (out_edges G p.1).map (fun e => (p.2, e)))).foldl
    (bumpStep (fun pe => pe.2.edge_type == "LIKES" && !(seen.contains pe.2.target_id))
      (fun pe => pe.2.target_id) (fun pe => pe.1 * (1/2))) s2
  G.nodes.foldl
    (bumpStep (fun n => n.node_type == "CONTENT" && !(seen.contains n.id))
      (fun n => n.id) (fun n => (1/10) * (1 + n.like_count / (n.view_count + 1)))) s3

/-- `KnowledgeGraphService.get_recommended_content`: empty for an unknown
user, otherwise the content-score dict sorted descending (stable) and
truncated to `limit`. -/
def get_recommended_content (G : KGraph) (user_id : String) (limit : ℕ)
    (exclude_seen : Bool) : List (String × ℚ) :=
  if hasNode G user_id then (sortDesc (content_scores G user_id exclude_seen)).take limit
  else []

/-- Well-formedness guaranteed by `networkx.DiGraph`: at most one edge per
ordered node pair. -/
def WFEdges (G : KGraph) : Prop :=
  G.edges.Pairwise (fun e1 e2 => ¬(e1.source_id = e2.source_id ∧ e1.target_id = e2.target_id))

/-- Whether the graph holds an edge `v → c` of the given type. -/
def hasTypedEdge (G : KGraph) (v c ty : String) : Bool :=
  G.edges.any (fun e => e.source_id == v && e.target_id == c && e.edge_type == ty)

/-- The similarity score as the specification words it: +1 per co-liked
content, +2 per shared INTEREST_IN target, +0.5 per
followed-by-someone-I-follow relation, for a candidate `v` distinct from
the user. -/
def spec_similarity_score (G : KGraph) (user_id v : String) : ℚ :=
  ((outTargets G user_id "LIKES").countP (fun c => hasTypedEdge G v c "LIKES") : ℚ)
    + 2 * ((outTargets G user_id "INTEREST_IN").countP
        (fun i => hasTypedEdge G v i "INTEREST_IN") : ℚ)
    + (1/2) * ((outTargets G user_id "FOLLOWS").countP
        (fun f => hasTypedEdge G f v "FOLLOWS") : ℚ)

/-- One incoming engagement edge of a content item as seen by
`get_trending_content`: its type string and, when the `created_at`
property is present and parses, the hours elapsed between it and `now`
(absent or unparsable timestamps are skipped by the source). -/
structure EngEvent where
  edge_type : String
  hours_ago : Option ℚ
deriving DecidableEq

/-- The engagement type weights of `get_trending_content`, with the dict
default 1.0. -/
def type_weight (t : String) : ℚ :=
  if t == "LIKES" then 2 else if t == "COMMENTS" then 3
  else if t == "SHARES" then 4 else if t == "VIEWS" then 1/2 else 1

/-- The membership test `edge_type in ['LIKES', 'VIEWS', 'COMMENTS', 'SHARES']`. -/
def is_engagement (t : String) : Bool :=
  t == "LIKES" || t == "VIEWS" || t == "COMMENTS" || t == "SHARES"

/-- One iteration of the engagement loop of `get_trending_content` over the
accumulator `(engagement_count, recency_sum)`. -/
def trending_step (w : ℚ) (acc : ℕ × ℚ) (e : EngEvent) : ℕ × ℚ :=
  if is_engagement e.edge_type then
    match e.hours_ago with
    | some h =>
      if h ≤ w then (acc.1 + 1, acc.2 + (1 - h / w) * type_weight e.edge_type) else acc
    | none => acc
  else acc

/-- The `(engagement_count, recency_sum)` pair accumulated by
`get_trending_content` over the incoming edges of one content item, for
window `w` hours. -/
def engagement_stats (w : ℚ) (events : List EngEvent) : ℕ × ℚ :=
  events.foldl (trending_step w) (0, 0)

/-- The age penalty `min(0.5, days_old / 30)` of `get_trending_content`,
zero when the content has no parsable `created_at`. -/
def age_penalty (days_old : Option ℚ) : ℚ :=
  match days_old with
  | some d => min (1/2) (d / 30)
  | none => 0

/-- The per-content trending score of `get_trending_content`: `some` score
when at least one eligible engagement event exists (the content is then
ranked), `none` otherwise (the content is absent from `trending_scores`). -/
def trending_score_opt (w : ℚ) (days_old : Option ℚ) (events : List EngEvent) : Option ℚ :=
  let n := (engagement_stats w events).1
  let s := (engagement_stats w events).2
  if 0 < n then some ((s / (1 + age_penalty days_old)) * (1 + (n : ℚ) / 10)) else none

/-- The trending score read as a number, zero for an unranked content item. -/
def trending_score (w : ℚ) (days_old : Option ℚ) (events : List EngEvent) : ℚ :=
  (trending_score_opt w days_old events).getD 0

/-- The Boolean eligibility test of the specification: an engagement-typed
edge whose timestamp parses and lies within the window. -/
def spec_eligible (w : ℚ) (e : EngEvent) : Bool :=
  is_engagement e.edge_type &&
    match e.hours_ago with
    | some h => decide (h ≤ w)
    | none => false

/-- The trending-score formula as the specification words it: over eligible
events, sum `typeWeight × recencyWeight` with
`recencyWeight = 1 − hoursAgo/window` clamped at 0, divide by
`1 + agePenalty`, multiply by `1 + engagementEventCount/10`. -/
def spec_trending_score (w : ℚ) (days_old : Option ℚ) (events : List EngEvent) : ℚ :=
  let eligible := events.filter (spec_eligible w)
  let total := (eligible.map
    (fun e => type_weight e.edge_type * max 0 (1 - (e.hours_ago.getD 0) / w))).sum
  (total / (1 + age_penalty days_old)) * (1 + (eligible.length : ℚ) / 10)

/-- The state of a `TopicNode` (`src/knowledge/nodes.py`): its EMA scores,
its complexity level and its entertainment value. -/
structure TopicNode where
  engagement_score : ℚ
  trending_score : ℚ
  complexity : ℤ
  entertainment_value : ℚ
deriving DecidableEq

/-- A freshly constructed `TopicNode`: zero scores and default complexity 3. -/
def TopicNode.init : TopicNode :=
  { engagement_score := 0, trending_score := 0, complexity := 3, entertainment_value := 0 }

/-- `TopicNode.update_engagement`: EMA with α = 0.3. -/
def update_engagement (t : TopicNode) (score : ℚ) : TopicNode :=
  { t with engagement_score := (1 - 3/10) * t.engagement_score + (3/10) * score }

/-- `TopicNode.update_trending`: EMA with α = 0.5. -/
def update_trending (t : TopicNode) (score : ℚ) : TopicNode :=
  { t with trending_score := (1 - 1/2) * t.trending_score + (1/2) * score }

/-- `TopicNode.update_complexity`: the complexity is set to the given level
exactly when the given engagement score strictly exceeds the stored
engagement score. -/
def update_complexity (t : TopicNode) (level : ℤ) (engagement_score : ℚ) : TopicNode :=
  if t.engagement_score < engagement_score then { t with complexity := level } else t

/-- `KnowledgeGraph.update_topic_weight` restricted to the topic node it
mutates: first the engagement EMA, then the trending EMA applied to
`weight × decay_factor` with `decay_factor = max(0.1, 1/(1 + 0.1·Δt))`,
where `time_diff` is the number of hours between the node's `updated_at`
and now (the engagement update has just reset `updated_at`, so it is
negligible in the running system; it is kept here as an explicit
parameter). -/
def update_topic_weight (t : TopicNode) (weight : ℚ) (time_diff : ℚ) : TopicNode :=
  let t1 := update_engagement t weight
  let decay_factor := max (1/10) (1 / (1 + (1/10) * time_diff))
  update_trending t1 (weight * decay_factor)

/-- `KnowledgeGraph.update_topic_complexity` restricted to the topic node:
`update_complexity` against the prior engagement score, then the
engagement EMA. -/
def update_topic_complexity (t : TopicNode) (complexity : ℤ) (engagement_score : ℚ) :
    TopicNode :=
  let t1 := update_complexity t complexity engagement_score
  update_engagement t1 engagement_score

/-- The state of `AttentionTracker` (`src/feedback/attention.py`); wall
clock readings are explicit rational parameters of the operations. -/
structure AttentionTracker where
  current_content_id : Option String
  view_start_time : ℚ
  active : Bool
  paused : Bool
  pause_start_time : ℚ
  total_pause_time : ℚ
deriving DecidableEq

/-- A freshly constructed tracker (the `None` start times are modelled as 0;
they are never read while `active` is false). -/
def AttentionTracker.init : AttentionTracker :=
  { current_content_id := none, view_start_time := 0, active := false, paused := false
    pause_start_time := 0, total_pause_time := 0 }

/-- Python truthiness of `self.current_content_id`: `None` and the empty
string are falsy. -/
def truthyId (o : Option String) : Bool :=
  match o with
  | none => false
  | some c => !(c == "")

/-- `AttentionTracker.resume`: closes the running pause, adding its
duration to `total_pause_time`. -/
def resume (s : AttentionTracker) (now : ℚ) : AttentionTracker :=
  if s.active && s.paused then
    { s with total_pause_time := s.total_pause_time + (now - s.pause_start_time)
             paused := false }
  else s

/-- `AttentionTracker.pause`: records the pause start. -/
def pause (s : AttentionTracker) (now : ℚ) : AttentionTracker :=
  if s.active && !s.paused then { s with paused := true, pause_start_time := now } else s

/-- `AttentionTracker.stop_viewing`: for an inactive tracker returns
`(None, 0)` and leaves the state alone; otherwise resumes a running pause,
returns the tracked content id with
`view_time = max(0, elapsed − total_pause_time)` and resets the tracker
(the source resets every field except `pause_start_time`). -/
def stop_viewing (s : AttentionTracker) (now : ℚ) :
    (Option String × ℚ) × AttentionTracker :=
  if !s.active || !(truthyId s.current_content_id) then ((none, 0), s)
  else
    let s1 := if s.paused then resume s now else s
    let view_time := max 0 ((now - s1.view_start_time) - s1.total_pause_time)
    ((s1.current_content_id, view_time),
      { s1 with current_content_id := none, view_start_time := 0, active := false
                paused := false, total_pause_time := 0 })

/-- `AttentionTracker.start_viewing`: implicitly stops (flushes) a view in
progress, then tracks the new content id from `now` with cleared pause
accounting. -/
def start_viewing (s : AttentionTracker) (content_id : String) (now : ℚ) :
    AttentionTracker :=
  let s0 := if s.active && truthyId s.current_content_id then (stop_viewing s now).2 else s
  { s0 with current_content_id := some content_id, view_start_time := now, active := true
            paused := false, total_pause_time := 0 }

/-- The state of `ContentFeed` (`src/interface/feed.py`): the loaded window
and the position. The storage behind `get_latest_content(limit=10)` is the
explicit parameter `latest` of the operations. -/
structure ContentFeed (α : Type) where
  current_feed : List α
  feed_position : ℕ
deriving DecidableEq

/-- `ContentFeed.refresh_feed`: reloads the window and resets the position. -/
def refresh_feed (latest : List α) (_s : ContentFeed α) : ContentFeed α :=
  { current_feed := latest, feed_position := 0 }

/-- `ContentFeed.next_item`: advances while not at the last item (the
source guard is `feed_position < len(current_feed) - 1`); otherwise
performs exactly one refresh and returns the item at the reset position, or
nothing if the refreshed window is empty. The third component counts the
`refresh_feed` calls made (0 or 1). -/
def next_item (latest : List α) (s : ContentFeed α) :
    Option α × ContentFeed α × ℕ :=
  if s.feed_position + 1 < s.current_feed.length then
    (s.current_feed[s.feed_position + 1]?,
      { current_feed := s.current_feed, feed_position := s.feed_position + 1 }, 0)
  else
    let s1 := refresh_feed latest s
    if s1.current_feed.isEmpty then (none, s1, 1)
    else (s1.current_feed[s1.feed_position]?, s1, 1)

/-- Repeated `next_item` calls, accumulating the number of refreshes. -/
def run_next (latest : List α) : ℕ → ContentFeed α → ContentFeed α × ℕ
  | 0, s => (s, 0)
  | k + 1, s =>
    let r := next_item latest s
    let rest := run_next latest k r.2.1
    (rest.1, r.2.2 + rest.2)

/-- One stored metrics record of `EngagementMetrics` (only the fields read
by `get_content_metrics`). -/
structure MetricsEntry where
  views : ℕ
  total_view_time : ℚ
  likes : ℕ
deriving DecidableEq

/-- The derived metrics returned by `EngagementMetrics.get_content_metrics`. -/
structure ContentMetricsOut where
  views : ℕ
  total_view_time : ℚ
  avg_view_time : ℚ
  likes : ℕ
  likes_per_view : ℚ
deriving DecidableEq

/-- Lookup in the `self.metrics` dict. -/
def lookupEntry (store : List (String × MetricsEntry)) (k : String) : Option MetricsEntry :=
  match store with
  | [] => none
  | (k', v) :: rest => if k' = k then some v else lookupEntry rest k

/-- `EngagementMetrics.get_content_metrics`: all-zero record for an unknown
content id; zero derived metrics (with the stored like count) when the
recorded view count is 0; otherwise the averages
`total_view_time / views` and `likes / views`. -/
def get_content_metrics (store : List (String × MetricsEntry)) (content_id : String) :
    ContentMetricsOut :=
  match lookupEntry store content_id with
  | none => { views := 0, total_view_time := 0, avg_view_time := 0, likes := 0
              likes_per_view := 0 }
  | some m =>
    if m.views = 0 then
      { views := 0, total_view_time := 0, avg_view_time := 0, likes := m.likes
        likes_per_view := 0 }
    else
      { views := m.views, total_view_time := m.total_view_time
        avg_view_time := m.total_view_time / (m.views : ℚ), likes := m.likes
        likes_per_view := (m.likes : ℚ) / (m.views : ℚ) }

/-- The recorded view count of a content id, 0 when never recorded. -/
def viewsOf (store : List (String × MetricsEntry)) (content_id : String) : ℕ :=
  match lookupEntry store content_id with
  | none => 0
  | some m => m.views

/-- `ContentNode.get_engagement_metrics` (`src/knowledge/nodes.py`): the
pair `(avg_view_time, likes_per_view)`, all-zero when `view_count` is 0. -/
def get_engagement_metrics (view_count : ℕ) (total_view_time : ℚ) (likes : ℕ) : ℚ × ℚ :=
  if view_count = 0 then (0, 0)
  else (total_view_time / (view_count : ℚ), (likes : ℚ) / (view_count : ℚ))

/-- Concrete input for the recommendation claims: user `u` follows user
`v`, and content `c` (zero counters) carries the modelled CREATED_BY edge
`c → v` as built by `CreatedBy(content_id, user_id)` in
`src/models/social.py`. -/
def recFollowGraph : KGraph :=
  { nodes := [⟨"u", "USER", 0, 0⟩, ⟨"v", "USER", 0, 0⟩, ⟨"c", "CONTENT", 0, 0⟩]
    edges := [⟨"u", "v", "FOLLOWS"⟩, ⟨"c", "v", "CREATED_BY"⟩] }

/-- The same graph without the FOLLOWS edge. -/
def recNoFollowGraph : KGraph :=
  { nodes := [⟨"u", "USER", 0, 0⟩, ⟨"v", "USER", 0, 0⟩, ⟨"c", "CONTENT", 0, 0⟩]
    edges := [⟨"c", "v", "CREATED_BY"⟩] }

/-- Concrete input for the similarity tie-break claim: users `z` and `a`
both like the single content `c` that `u` likes, with the `z` edge inserted
before the `a` edge. -/
def tieGraph : KGraph :=
  { nodes := [⟨"u", "USER", 0, 0⟩, ⟨"z", "USER", 0, 0⟩, ⟨"a", "USER", 0, 0⟩,
              ⟨"c", "CONTENT", 0, 0⟩]
    edges := [⟨"u", "c", "LIKES"⟩, ⟨"z", "c", "LIKES"⟩, ⟨"a", "c", "LIKES"⟩] }

lemma edges_nxEnsureNode (G : KGraph) (v : String) : (nxEnsureNode G v).edges = G.edges := by
  unfold nxEnsureNode
  split <;> rfl

lemma hasNode_nxEnsureNode_self (G : KGraph) (v : String) :
    hasNode (nxEnsureNode G v) v = true := by
  unfold nxEnsureNode
  split
  · assumption
  · simp [hasNode]

lemma hasNode_nxEnsureNode_mono (G : KGraph) (v w : String) (h : hasNode G w = true) :
    hasNode (nxEnsureNode G v) w = true := by
  unfold nxEnsureNode
  split
  · exact h
  · unfold hasNode at h ⊢
    simp only [List.any_append, h, Bool.true_or]

lemma nodes_add_edge (G : KGraph) (e : KGEdge) :
    (add_edge G e).nodes = (nxEnsureNode (nxEnsureNode G e.source_id) e.target_id).nodes := by
  simp only [add_edge]
  split <;> rfl

/-- C5 counterexample: on the empty graph, `add_edge` with two missing
endpoints is not rejected; it mutates the graph, implicitly creating both
endpoint nodes (with empty attributes) and the edge. -/
theorem add_edge_missing_endpoints_cex :
    add_edge { nodes := [], edges := [] } ⟨"a", "b", "FOLLOWS"⟩ =
      { nodes := [⟨"a", "", 0, 0⟩, ⟨"b", "", 0, 0⟩]
        edges := [⟨"a", "b", "FOLLOWS"⟩] } ∧
    add_edge { nodes := [], edges := [] } ⟨"a", "b", "FOLLOWS"⟩ ≠
      { nodes := [], edges := [] } := by
  constructor
  · rfl
  · intro h
    have h2 : ([⟨"a", "", 0, 0⟩, ⟨"b", "", 0, 0⟩] : List KGNode) = ([] : List KGNode) :=
      congrArg KGraph.nodes h
    exact List.cons_ne_nil _ _ h2

/-- C5 amended: neither `KnowledgeGraphService.add_edge` nor
`KnowledgeGraph.add_relationship` validates endpoints; every call succeeds,
after it both endpoints exist (created implicitly when missing) and the
edge for the ordered pair is present. -/
theorem add_edge_never_rejects (G : KGraph) (e : KGEdge) (S : KnowledgeGraphState)
    (rid : String) :
    hasNode (add_edge G e) e.source_id = true ∧
    hasNode (add_edge G e) e.target_id = true ∧
    (add_edge G e).edges.any
      (fun d => d.source_id == e.source_id && d.target_id == e.target_id) = true ∧
    hasNode (add_relationship S rid e).graph e.source_id = true ∧
    (add_relationship S rid e).relationships.length = S.relationships.length + 1 := by
  have hsrc : ∀ H : KGraph, hasNode (add_edge H e) e.source_id = true := by
    intro H
    have h1 : hasNode (nxEnsureNode H e.source_id) e.source_id = true :=
      hasNode_nxEnsureNode_self H e.source_id
    have h2 := hasNode_nxEnsureNode_mono (nxEnsureNode H e.source_id) e.target_id
      e.source_id h1
    unfold hasNode at h2 ⊢
    rw [nodes_add_edge]
    exact h2
  have htgt : hasNode (add_edge G e) e.target_id = true := by
    have h1 : hasNode (nxEnsureNode (nxEnsureNode G e.source_id) e.target_id)
        e.target_id = true :=
      hasNode_nxEnsureNode_self (nxEnsureNode G e.source_id) e.target_id
    unfold hasNode at h1 ⊢
    rw [nodes_add_edge]
    exact h1
  have hedge : (add_edge G e).edges.any
      (fun d => d.source_id == e.source_id && d.target_id == e.target_id) = true := by
    simp only [add_edge]
    split
    · rename_i hmem
      rw [List.any_eq_true] at hmem ⊢
      obtain ⟨d, hd, hdk⟩ := hmem
      refine ⟨e, ?_, by simp⟩
      exact List.mem_map.2 ⟨d, hd, by simp [hdk]⟩
    · simp
  refine ⟨hsrc G, htgt, hedge, ?_, ?_⟩
  · exact hsrc S.graph
  · simp [add_relationship]

/-- C5 witness: the amended theorem applied to the empty graph and a
dangling edge. -/
theorem add_edge_never_rejects_witness :
    hasNode (add_edge { nodes := [], edges := [] } ⟨"a", "b", "FOLLOWS"⟩) "a" = true ∧
    (add_relationship { graph := { nodes := [], edges := [] }, relationships := [] }
      "r1" ⟨"a", "b", "FOLLOWS"⟩).relationships.length = 0 + 1 := by
  have h := add_edge_never_rejects { nodes := [], edges := [] } ⟨"a", "b", "FOLLOWS"⟩
    { graph := { nodes := [], edges := [] }, relationships := [] } "r1"
  exact ⟨h.1, h.2.2.2.2⟩

/-- C6 counterexample: a fresh topic has complexity 3 and engagement 0;
one `update_topic_complexity` call with level 1 and engagement score 1
lowers the stored complexity to 1. -/
theorem update_topic_complexity_lowers_cex :
    (update_topic_complexity TopicNode.init 1 1).complexity = 1 ∧
    TopicNode.init.complexity = 3 := by
  constructor
  · norm_num [update_topic_complexity, update_complexity, update_engagement, TopicNode.init]
  · rfl

/-- C6 amended: `update_topic_complexity` sets the stored complexity to the
given level — whether higher or lower than the current value — exactly when
the new engagement score strictly exceeds the engagement score prior to the
accompanying EMA update, and leaves it unchanged otherwise. -/
theorem update_topic_complexity_guard (t : TopicNode) (lvl : ℤ) (es : ℚ) :
    (t.engagement_score < es → (update_topic_complexity t lvl es).complexity = lvl) ∧
    (es ≤ t.engagement_score →
      (update_topic_complexity t lvl es).complexity = t.complexity) ∧
    (update_topic_complexity t lvl es).engagement_score
      = (1 - 3/10) * t.engagement_score + (3/10) * es := by
  unfold update_topic_complexity update_complexity update_engagement
  refine ⟨fun h => ?_, fun h => ?_, ?_⟩
  · rw [if_pos h]
  · rw [if_neg (not_lt.2 h)]
  · split <;> rfl

/-- C6 witness: the guard theorem at a fresh topic with engagement score 1
and level 5. -/
theorem update_topic_complexity_guard_witness :
    (update_topic_complexity TopicNode.init 5 1).complexity = 5 :=
  (update_topic_complexity_guard TopicNode.init 5 1).1
    (by norm_num [TopicNode.init])

/-- C10: the engagement-metric reads are total at zero view counts — an id
whose recorded view count is 0 (including ids never recorded) yields zero
derived metrics from `get_content_metrics`, and
`ContentNode.get_engagement_metrics` with `view_count = 0` returns `(0, 0)`
— no division is performed outside the `views > 0` branch. -/
theorem zero_view_metrics_total (store : List (String × MetricsEntry))
    (content_id : String) (h : viewsOf store content_id = 0) :
    (get_content_metrics store content_id).avg_view_time = 0 ∧
    (get_content_metrics store content_id).likes_per_view = 0 ∧
    ∀ (tvt : ℚ) (likes : ℕ), get_engagement_metrics 0 tvt likes = (0, 0) := by
  unfold viewsOf at h
  unfold get_content_metrics
  cases hl : lookupEntry store content_id with
  | none => exact ⟨rfl, rfl, fun _ _ => rfl⟩
  | some m =>
    rw [hl] at h
    dsimp only at h ⊢
    rw [if_pos h]
    exact ⟨rfl, rfl, fun _ _ => rfl⟩

/-- C1: the +3 followed-creator bonus of the specification never fires in
the code. `CreatedBy` edges run content → creator
(`src/models/social.py`), but `get_recommended_content` scans the
out-edges of each followed user for CREATED_BY; on a graph where `u`
follows the creator `v` of content `c`, the specification predicts a score
of 3 + 0.1 = 3.1 while the code produces only the popularity term 0.1, the
same score as on the graph without the FOLLOWS edge. -/
theorem recommendation_follow_bonus_dead :
    get_recommended_content recFollowGraph "u" 10 true = [("c", 1/10)] ∧
    get_recommended_content recNoFollowGraph "u" 10 true = [("c", 1/10)] ∧
    (1/10 : ℚ) ≠ 3 + 1/10 := by
  refine ⟨?_, ?_, by norm_num⟩ <;>
    norm_num [get_recommended_content, content_scores, seenContent, outTargets,
      out_edges, in_edges, hasNode, get_similar_users, similar_user_scores, bump,
      bumpStep, sortDesc, List.insertionSort, List.orderedInsert, recFollowGraph,
      recNoFollowGraph]

/-- C4 counterexample: `u`, `z` and `a` all like content `c` (the `z` edge
inserted first); `z` and `a` tie at score 1, yet the code returns `z`
before `a` — Python stable sort keeps dict-insertion order for ties, it
does not order node ids ascending. -/
theorem similar_users_tie_order_cex :
    get_similar_users tieGraph "u" 10 = [("z", 1), ("a", 1)] ∧
    ("a" : String) < "z" ∧
    [(("z" : String), (1 : ℚ)), ("a", 1)] ≠ [("a", 1), ("z", 1)] := by
  refine ⟨?_, ?_, ?_⟩
  · norm_num [get_similar_users, similar_user_scores, outTargets, out_edges, in_edges,
      hasNode, bump, bumpStep, sortDesc, List.insertionSort, List.orderedInsert,
      tieGraph, scoreGE]
  · rw [String.lt_iff_toList_lt]
    decide
  · intro hEq
    have h2 : ("z" : String) = "a" := congrArg (fun l => (l.headD ("", 0)).1) hEq
    exact absurd h2 (by decide)

lemma lookupD_bump_eq (l : List (String × ℚ)) (k k' : String) (d : ℚ) :
    lookupD (bump k d l) k' = lookupD l k' + (if k = k' then d else 0) := by
  induction l with
  | nil =>
    simp only [bump, lookupD]
    split <;> simp
  | cons hd tl ih =>
    obtain ⟨k2, v⟩ := hd
    simp only [bump]
    by_cases h2 : k2 = k
    · subst h2
      by_cases h3 : k2 = k' <;> simp [lookupD, h3]
    · rw [if_neg h2]
      simp only [lookupD]
      by_cases h3 : k2 = k'
      · rw [if_pos h3, if_pos h3]
        have hkk : k ≠ k' := fun he => h2 (h3.trans he.symm)
        rw [if_neg hkk, add_zero]
      · rw [if_neg h3, if_neg h3, ih]

lemma lookupD_foldl_bumpStep (cond : α → Bool) (key : α → String) (amt : α → ℚ) :
    ∀ (xs : List α) (init : List (String × ℚ)) (v : String),
      lookupD (xs.foldl (bumpStep cond key amt) init) v
        = lookupD init v + ((xs.filter (fun x => cond x && key x == v)).map amt).sum
  | [], init, v => by simp
  | x :: xs, init, v => by
    rw [List.foldl_cons, lookupD_foldl_bumpStep cond key amt xs _ v]
    unfold bumpStep
    by_cases hc : cond x
    · rw [if_pos hc, lookupD_bump_eq]
      by_cases hk : key x = v
      · simp only [List.filter_cons, hc, hk, if_pos, beq_self_eq_true, Bool.and_self,
          List.map_cons, List.sum_cons]
        ring
      · rw [if_neg hk]
        simp only [List.filter_cons, hc]
        rw [if_neg (by simp [hk]), add_zero]
    · rw [if_neg hc]
      simp [List.filter_cons, hc]

lemma sum_map_const (l : List α) (c : ℚ) :
    (l.map (fun _ => c)).sum = (l.length : ℚ) * c := by
  induction l with
  | nil => simp
  | cons x xs ih =>
    simp only [List.map_cons, List.sum_cons, ih, List.length_cons]
    push_cast
    ring

lemma length_filter_flatMap (l : List β) (f : β → List α) (q : α → Bool) :
    ((l.flatMap f).filter q).length
      = (l.map (fun b => ((f b).filter q).length)).sum := by
  induction l with
  | nil => simp
  | cons b bs ih =>
    simp [List.flatMap_cons, List.filter_append, ih]

lemma sum_map_ite_one (l : List α) (p : α → Bool) :
    (l.map (fun b => if p b then (1 : ℕ) else 0)).sum = l.countP p := by
  induction l with
  | nil => simp
  | cons x xs ih =>
    by_cases hp : p x <;> simp [List.countP_cons, hp, ih]
    omega

lemma filter_keyed_length :
    ∀ (edges : List KGEdge),
      edges.Pairwise
        (fun e1 e2 => ¬(e1.source_id = e2.source_id ∧ e1.target_id = e2.target_id)) →
      ∀ (v c ty : String),
        (edges.filter
          (fun e => e.source_id == v && e.target_id == c && e.edge_type == ty)).length
          = if edges.any
              (fun e => e.source_id == v && e.target_id == c && e.edge_type == ty)
            then 1 else 0
  | [], _, v, c, ty => by simp
  | e :: es, hWF, v, c, ty => by
    obtain ⟨hhead, htail⟩ := List.pairwise_cons.1 hWF
    by_cases hp : (e.source_id == v && e.target_id == c && e.edge_type == ty) = true
    · have hkey : e.source_id = v ∧ e.target_id = c := by
        simp only [Bool.and_eq_true, beq_iff_eq] at hp
        exact ⟨hp.1.1, hp.1.2⟩
      have htail0 : es.filter
          (fun e => e.source_id == v && e.target_id == c && e.edge_type == ty) = [] := by
        rw [List.filter_eq_nil_iff]
        intro x hx hpx
        simp only [Bool.and_eq_true, beq_iff_eq] at hpx
        exact hhead x hx ⟨hkey.1.trans hpx.1.1.symm, hkey.2.trans hpx.1.2.symm⟩
      simp [List.filter_cons, hp, htail0, List.any_cons]
    · have hpf : (e.source_id == v && e.target_id == c && e.edge_type == ty) = false :=
        eq_false_of_ne_true hp
      have ih := filter_keyed_length es htail v c ty
      simp [List.filter_cons, List.any_cons, hpf, ih]

lemma similar_user_scores_lookup (G : KGraph) (u v : String) (hvu : v ≠ u)
    (hWF : WFEdges G) :
    lookupD (similar_user_scores G u) v = spec_similarity_score G u v := by
  have hform : similar_user_scores G u
      = ((outTargets G u "FOLLOWS").flatMap (fun f => out_edges G f)).foldl
          (bumpStep (fun e => e.target_id != u && e.edge_type == "FOLLOWS")
            (fun e => e.target_id) (fun _ => 1/2))
          (((outTargets G u "INTEREST_IN").flatMap (fun i => in_edges G i)).foldl
            (bumpStep (fun e => e.source_id != u && e.edge_type == "INTEREST_IN")
              (fun e => e.source_id) (fun _ => 2))
            (((outTargets G u "LIKES").flatMap (fun c => in_edges G c)).foldl
              (bumpStep (fun e => e.source_id != u && e.edge_type == "LIKES")
                (fun e => e.source_id) (fun _ => 1)) [])) := rfl
  have inner1 : ∀ ct : String,
      ((in_edges G ct).filter
        (fun e => (e.source_id != u && e.edge_type == "LIKES") && e.source_id == v)).length
        = if hasTypedEdge G v ct "LIKES" then 1 else 0 := by
    intro ct
    unfold in_edges
    rw [List.filter_filter]
    rw [List.filter_congr (q := fun e =>
        e.source_id == v && e.target_id == ct && e.edge_type == "LIKES") ?_]
    · exact filter_keyed_length G.edges hWF v ct "LIKES"
    · intro e _
      rw [Bool.eq_iff_iff]
      simp only [Bool.and_eq_true, beq_iff_eq, bne_iff_ne]
      constructor
      · rintro ⟨⟨⟨_, hty⟩, hsv⟩, htc⟩
        exact ⟨⟨hsv, htc⟩, hty⟩
      · rintro ⟨⟨hsv, htc⟩, hty⟩
        exact ⟨⟨⟨fun h => hvu (hsv.symm.trans h), hty⟩, hsv⟩, htc⟩
  have inner2 : ∀ it : String,
      ((in_edges G it).filter
        (fun e => (e.source_id != u && e.edge_type == "INTEREST_IN")
          && e.source_id == v)).length
        = if hasTypedEdge G v it "INTEREST_IN" then 1 else 0 := by
    intro it
    unfold in_edges
    rw [List.filter_filter]
    rw [List.filter_congr (q := fun e =>
        e.source_id == v && e.target_id == it && e.edge_type == "INTEREST_IN") ?_]
    · exact filter_keyed_length G.edges hWF v it "INTEREST_IN"
    · intro e _
      rw [Bool.eq_iff_iff]
      simp only [Bool.and_eq_true, beq_iff_eq, bne_iff_ne]
      constructor
      · rintro ⟨⟨⟨_, hty⟩, hsv⟩, htc⟩
        exact ⟨⟨hsv, htc⟩, hty⟩
      · rintro ⟨⟨hsv, htc⟩, hty⟩
        exact ⟨⟨⟨fun h => hvu (hsv.symm.trans h), hty⟩, hsv⟩, htc⟩
  have inner3 : ∀ fl : String,
      ((out_edges G fl).filter
        (fun e => (e.target_id != u && e.edge_type == "FOLLOWS")
          && e.target_id == v)).length
        = if hasTypedEdge G fl v "FOLLOWS" then 1 else 0 := by
    intro fl
    unfold out_edges
    rw [List.filter_filter]
    rw [List.filter_congr (q := fun e =>
        e.source_id == fl && e.target_id == v && e.edge_type == "FOLLOWS") ?_]
    · exact filter_keyed_length G.edges hWF fl v "FOLLOWS"
    · intro e _
      rw [Bool.eq_iff_iff]
      simp only [Bool.and_eq_true, beq_iff_eq, bne_iff_ne]
      constructor
      · rintro ⟨⟨⟨_, hty⟩, htv⟩, hsf⟩
        exact ⟨⟨hsf, htv⟩, hty⟩
      · rintro ⟨⟨hsf, htv⟩, hty⟩
        exact ⟨⟨⟨fun h => hvu (htv.symm.trans h), hty⟩, htv⟩, hsf⟩
  rw [hform, lookupD_foldl_bumpStep, lookupD_foldl_bumpStep, lookupD_foldl_bumpStep]
  rw [sum_map_const, sum_map_const, sum_map_const]
  rw [length_filter_flatMap, length_filter_flatMap, length_filter_flatMap]
  have hm1 : (outTargets G u "LIKES").map
        (fun b => ((in_edges G b).filter
          (fun e => (e.source_id != u && e.edge_type == "LIKES")
            && e.source_id == v)).length)
      = (outTargets G u "LIKES").map
        (fun b => if hasTypedEdge G v b "LIKES" then 1 else 0) :=
    List.map_congr_left (fun ct _ => inner1 ct)
  have hm2 : (outTargets G u "INTEREST_IN").map
        (fun b => ((in_edges G b).filter
          (fun e => (e.source_id != u && e.edge_type == "INTEREST_IN")
            && e.source_id == v)).length)
      = (outTargets G u "INTEREST_IN").map
        (fun b => if hasTypedEdge G v b "INTEREST_IN" then 1 else 0) :=
    List.map_congr_left (fun it _ => inner2 it)
  have hm3 : (outTargets G u "FOLLOWS").map
        (fun b => ((out_edges G b).filter
          (fun e => (e.target_id != u && e.edge_type == "FOLLOWS")
            && e.target_id == v)).length)
      = (outTargets G u "FOLLOWS").map
        (fun b => if hasTypedEdge G b v "FOLLOWS" then 1 else 0) :=
    List.map_congr_left (fun fl _ => inner3 fl)
  rw [hm1, hm2, hm3, sum_map_ite_one, sum_map_ite_one, sum_map_ite_one]
  unfold spec_similarity_score
  simp only [lookupD]
  ring

/-- C4 amended: `get_similar_users` assigns every candidate `v ≠ u` the
specified score (+1 per co-liked content, +2 per shared interest, +0.5 per
followed-by-someone-I-follow relation, assuming the `DiGraph` invariant of
one edge per ordered pair), and returns at most `limit` entries in
non-increasing score order; equal scores keep dict-insertion
(first-encountered) order, not ascending node-id order. -/
theorem get_similar_users_spec (G : KGraph) (u : String) (limit : ℕ) (v : String)
    (hvu : v ≠ u) (hWF : WFEdges G) :
    lookupD (similar_user_scores G u) v = spec_similarity_score G u v ∧
    List.Sorted scoreGE (get_similar_users G u limit) ∧
    (get_similar_users G u limit).length ≤ limit := by
  refine ⟨similar_user_scores_lookup G u v hvu hWF, ?_, ?_⟩
  · unfold get_similar_users sortDesc
    split
    · exact List.Pairwise.sublist (List.take_sublist _ _)
        (List.sorted_insertionSort scoreGE _)
    · exact List.sorted_nil
  · unfold get_similar_users
    split
    · exact List.length_take_le _ _
    · simp

/-- C4 witness: the amended theorem evaluated on the tie graph at
candidate `z`. -/
theorem get_similar_users_spec_witness :
    lookupD (similar_user_scores tieGraph "u") "z"
        = spec_similarity_score tieGraph "u" "z" ∧
    List.Sorted scoreGE (get_similar_users tieGraph "u" 10) ∧
    (get_similar_users tieGraph "u" 10).length ≤ 10 :=
  get_similar_users_spec tieGraph "u" 10 "z" (by decide)
    (by unfold WFEdges tieGraph; decide)

lemma type_weight_pos (t : String) : 0 < type_weight t := by
  unfold type_weight
  repeat' split
  all_goals norm_num

lemma foldl_trending_step_eq (w : ℚ) :
    ∀ (events : List EngEvent) (acc : ℕ × ℚ),
      events.foldl (trending_step w) acc =
        (acc.1 + (events.filter (spec_eligible w)).length,
          acc.2 + ((events.filter (spec_eligible w)).map
            (fun e => (1 - e.hours_ago.getD 0 / w) * type_weight e.edge_type)).sum)
  | [], acc => by simp
  | e :: es, acc => by
    rw [List.foldl_cons, foldl_trending_step_eq w es _]
    by_cases heng : is_engagement e.edge_type
    · cases hho : e.hours_ago with
      | none =>
        simp [trending_step, spec_eligible, heng, hho]
      | some h =>
        by_cases hhw : h ≤ w
        · have helig : spec_eligible w e = true := by
            simp [spec_eligible, heng, hho, hhw]
          have hstep : trending_step w acc e =
              (acc.1 + 1, acc.2 + (1 - h / w) * type_weight e.edge_type) := by
            simp [trending_step, heng, hho, hhw]
          rw [hstep]
          simp only [List.filter_cons, helig, if_true, List.length_cons, List.map_cons,
            List.sum_cons, hho, Option.getD_some]
          refine Prod.ext ?_ ?_
          · simp only
            omega
          · simp only
            ring
        · have helig : spec_eligible w e = false := by
            simp [spec_eligible, heng, hho, hhw]
          have hstep : trending_step w acc e = acc := by
            simp [trending_step, heng, hho, hhw]
          rw [hstep]
          simp [List.filter_cons, helig]
    · have helig : spec_eligible w e = false := by
        simp [spec_eligible, heng]
      have hstep : trending_step w acc e = acc := by
        simp [trending_step, heng]
      rw [hstep]
      simp [List.filter_cons, helig]

lemma engagement_stats_eq (w : ℚ) (events : List EngEvent) :
    engagement_stats w events =
      ((events.filter (spec_eligible w)).length,
        ((events.filter (spec_eligible w)).map
          (fun e => (1 - e.hours_ago.getD 0 / w) * type_weight e.edge_type)).sum) := by
  unfold engagement_stats
  rw [foldl_trending_step_eq]
  simp

lemma eligible_recency_nonneg (w : ℚ) (hw : 0 < w) (e : EngEvent)
    (he : spec_eligible w e = true) :
    0 ≤ 1 - e.hours_ago.getD 0 / w := by
  unfold spec_eligible at he
  cases hho : e.hours_ago with
  | none => rw [hho] at he; simp at he
  | some h =>
    rw [hho] at he
    simp only [Bool.and_eq_true, decide_eq_true_eq] at he
    simp only [Option.getD_some]
    rw [sub_nonneg, div_le_one hw]
    exact he.2

lemma eligible_term_nonneg (w : ℚ) (hw : 0 < w) (e : EngEvent)
    (he : spec_eligible w e = true) :
    0 ≤ (1 - e.hours_ago.getD 0 / w) * type_weight e.edge_type :=
  mul_nonneg (eligible_recency_nonneg w hw e he) (type_weight_pos e.edge_type).le

lemma eligible_sum_nonneg (w : ℚ) (hw : 0 < w) (l : List EngEvent) :
    0 ≤ ((l.filter (spec_eligible w)).map
      (fun e => (1 - e.hours_ago.getD 0 / w) * type_weight e.edge_type)).sum := by
  apply List.sum_nonneg
  intro x hx
  rw [List.mem_map] at hx
  obtain ⟨e, he, rfl⟩ := hx
  exact eligible_term_nonneg w hw e (List.of_mem_filter he)

lemma age_penalty_denom_pos (days_old : Option ℚ)
    (hd : ∀ d, days_old = some d → 0 ≤ d) :
    0 < 1 + age_penalty days_old := by
  cases days_old with
  | none => norm_num [age_penalty]
  | some d =>
    have h0 : (0 : ℚ) ≤ d := hd d rfl
    have : (0 : ℚ) ≤ min (1/2) (d / 30) := le_min (by norm_num) (by positivity)
    unfold age_penalty
    linarith

lemma trending_score_as_formula (w : ℚ) (days_old : Option ℚ) (events : List EngEvent) :
    trending_score w days_old events =
      ((engagement_stats w events).2 / (1 + age_penalty days_old))
        * (1 + ((engagement_stats w events).1 : ℚ) / 10) := by
  unfold trending_score trending_score_opt
  by_cases hn : 0 < (engagement_stats w events).1
  · rw [if_pos hn]
    rfl
  · rw [if_neg hn]
    have hzero : (engagement_stats w events).1 = 0 := by omega
    have hsum : (engagement_stats w events).2 = 0 := by
      rw [engagement_stats_eq] at hzero ⊢
      simp only at hzero ⊢
      rw [List.length_eq_zero] at hzero
      rw [hzero]
      simp
    rw [hsum]
    simp

lemma score_formula_mono (s1 s2 D : ℚ) (n1 n2 : ℕ) (hs0 : 0 ≤ s1) (hs : s1 ≤ s2)
    (hn : n1 ≤ n2) (hD : 0 < D) :
    (s1 / D) * (1 + (n1 : ℚ) / 10) ≤ (s2 / D) * (1 + (n2 : ℚ) / 10) := by
  have h1 : s1 / D ≤ s2 / D := (div_le_div_iff_of_pos_right hD).2 hs
  have hcast : (n1 : ℚ) ≤ (n2 : ℚ) := by exact_mod_cast hn
  have h2 : (1 + (n1 : ℚ) / 10) ≤ (1 + (n2 : ℚ) / 10) := by linarith
  have h3 : (0 : ℚ) ≤ 1 + (n1 : ℚ) / 10 := by positivity
  have h4 : (0 : ℚ) ≤ s2 / D := div_nonneg (by linarith) hD.le
  exact mul_le_mul h1 h2 h3 h4

/-- C2: the per-content computation of `get_trending_content` equals the
trending-score formula as the specification words it (eligible events are
the engagement-typed edges timestamped within the window; each contributes
`typeWeight × recencyWeight` with the clamp at 0; the sum is divided by
`1 + agePenalty` and multiplied by `1 + engagementEventCount/10`), and a
content item with zero eligible events is not ranked (absent from
`trending_scores`, i.e. score `none`). -/
theorem trending_score_matches_spec (w : ℚ) (days_old : Option ℚ)
    (events : List EngEvent) (hw : 0 < w) :
    trending_score w days_old events = spec_trending_score w days_old events ∧
    ((engagement_stats w events).1 = 0 → trending_score_opt w days_old events = none) := by
  constructor
  · rw [trending_score_as_formula, engagement_stats_eq]
    unfold spec_trending_score
    simp only
    have hmap : (List.map (fun e => (1 - e.hours_ago.getD 0 / w) * type_weight e.edge_type)
          (events.filter (spec_eligible w))).sum
        = (List.map (fun e => type_weight e.edge_type * max 0 (1 - e.hours_ago.getD 0 / w))
          (events.filter (spec_eligible w))).sum := by
      apply congrArg
      apply List.map_congr_left
      intro e he
      have helig := List.of_mem_filter he
      rw [max_eq_right (eligible_recency_nonneg w hw e helig), mul_comm]
    rw [hmap]
  · intro h
    simp [trending_score_opt, h]

/-- C2 witness: one LIKES event 3 hours old on a 1-day-old content item in
the default 24-hour window. -/
theorem trending_score_matches_spec_witness :
    trending_score 24 (some 1) [{ edge_type := "LIKES", hours_ago := some 3 }]
        = spec_trending_score 24 (some 1) [{ edge_type := "LIKES", hours_ago := some 3 }] ∧
    ((engagement_stats 24 [{ edge_type := "LIKES", hours_ago := some 3 }]).1 = 0 →
      trending_score_opt 24 (some 1) [{ edge_type := "LIKES", hours_ago := some 3 }]
        = none) :=
  trending_score_matches_spec 24 (some 1) [{ edge_type := "LIKES", hours_ago := some 3 }]
    (by norm_num)

/-- C3: for a fixed edge set, the trending score is non-increasing in the
`hours_ago` of any single engagement event, including the transition past
the window where the event stops counting in both the weighted sum and the
engagement-count multiplier. Contents are assumed not to be created in the
future (`days_old ≥ 0` when present), which keeps `1 + agePenalty`
positive. -/
theorem trending_recency_monotone (w : ℚ) (days_old : Option ℚ)
    (pre post : List EngEvent) (ty : String) (h h' : ℚ) (hw : 0 < w)
    (hd : ∀ d, days_old = some d → 0 ≤ d) (hh : h ≤ h') :
    trending_score w days_old (pre ++ { edge_type := ty, hours_ago := some h' } :: post)
      ≤ trending_score w days_old
          (pre ++ { edge_type := ty, hours_ago := some h } :: post) := by
  have hD := age_penalty_denom_pos days_old hd
  rw [trending_score_as_formula, trending_score_as_formula, engagement_stats_eq,
    engagement_stats_eq]
  simp only
  apply score_formula_mono
  · exact eligible_sum_nonneg w hw _
  · by_cases heng : is_engagement ty
    · by_cases hw1 : h' ≤ w
      · have hhww : h ≤ w := le_trans hh hw1
        have e1 : spec_eligible w { edge_type := ty, hours_ago := some h } = true := by
          simp [spec_eligible, heng, hhww]
        have e2 : spec_eligible w { edge_type := ty, hours_ago := some h' } = true := by
          simp [spec_eligible, heng, hw1]
        simp only [List.filter_append, List.filter_cons, e1, e2, if_true,
          List.map_append, List.sum_append, List.map_cons, List.sum_cons,
          Option.getD_some]
        have hdiv : h / w ≤ h' / w := (div_le_div_iff_of_pos_right hw).2 hh
        have hmul : (1 - h' / w) * type_weight ty ≤ (1 - h / w) * type_weight ty :=
          mul_le_mul_of_nonneg_right (by linarith) (type_weight_pos ty).le
        linarith
      · have e2 : spec_eligible w { edge_type := ty, hours_ago := some h' } = false := by
          simp [spec_eligible, heng, hw1]
        by_cases hhww : h ≤ w
        · have e1 : spec_eligible w { edge_type := ty, hours_ago := some h } = true := by
            simp [spec_eligible, heng, hhww]
          have hterm : 0 ≤ (1 - h / w) * type_weight ty := by
            have : h / w ≤ 1 := (div_le_one hw).2 hhww
            exact mul_nonneg (by linarith) (type_weight_pos ty).le
          simp only [List.filter_append, List.filter_cons, e1, e2, if_true,
            Bool.false_eq_true, if_false, List.map_append, List.sum_append,
            List.map_cons, List.sum_cons, Option.getD_some]
          linarith
        · have e1 : spec_eligible w { edge_type := ty, hours_ago := some h } = false := by
            simp [spec_eligible, heng, hhww]
          simp only [List.filter_append, List.filter_cons, e1, e2, Bool.false_eq_true,
            if_false]
          exact le_refl _
    · have e1 : spec_eligible w { edge_type := ty, hours_ago := some h } = false := by
        simp [spec_eligible, heng]
      have e2 : spec_eligible w { edge_type := ty, hours_ago := some h' } = false := by
        simp [spec_eligible, heng]
      simp only [List.filter_append, List.filter_cons, e1, e2, Bool.false_eq_true,
        if_false]
      exact le_refl _
  · by_cases heng : is_engagement ty
    · by_cases hw1 : h' ≤ w
      · have hhww : h ≤ w := le_trans hh hw1
        have e1 : spec_eligible w { edge_type := ty, hours_ago := some h } = true := by
          simp [spec_eligible, heng, hhww]
        have e2 : spec_eligible w { edge_type := ty, hours_ago := some h' } = true := by
          simp [spec_eligible, heng, hw1]
        simp only [List.filter_append, List.filter_cons, e1, e2, if_true,
          List.length_append, List.length_cons]
        omega
      · have e2 : spec_eligible w { edge_type := ty, hours_ago := some h' } = false := by
          simp [spec_eligible, heng, hw1]
        by_cases hhww : h ≤ w
        · have e1 : spec_eligible w { edge_type := ty, hours_ago := some h } = true := by
            simp [spec_eligible, heng, hhww]
          simp only [List.filter_append, List.filter_cons, e1, e2, if_true,
            Bool.false_eq_true, if_false, List.length_append, List.length_cons]
          omega
        · have e1 : spec_eligible w { edge_type := ty, hours_ago := some h } = false := by
            simp [spec_eligible, heng, hhww]
          simp only [List.filter_append, List.filter_cons, e1, e2, Bool.false_eq_true,
            if_false]
          exact le_refl _
    · have e1 : spec_eligible w { edge_type := ty, hours_ago := some h } = false := by
        simp [spec_eligible, heng]
      have e2 : spec_eligible w { edge_type := ty, hours_ago := some h' } = false := by
        simp [spec_eligible, heng]
      simp only [List.filter_append, List.filter_cons, e1, e2, Bool.false_eq_true,
        if_false]
      exact le_refl _
  · exact hD

/-- C3 witness: ageing a lone LIKES event from 1 to 2 hours in the 24-hour
window does not raise the score. -/
theorem trending_recency_monotone_witness :
    trending_score 24 none ([] ++ { edge_type := "LIKES", hours_ago := some 2 } :: [])
      ≤ trending_score 24 none ([] ++ { edge_type := "LIKES", hours_ago := some 1 } :: []) :=
  trending_recency_monotone 24 none [] [] "LIKES" 1 2 (by norm_num)
    (fun d hd => by cases hd) (by norm_num)

/-- C7: a fresh topic has trending score 0; one `update_topic_weight` call
with weight 0.8 after `t ≥ 0` hours yields a trending score within `t/25`
of 0.4, hence exactly 0.4 = the α = 0.5 EMA blend of 0 and 0.8 × decay at
negligible elapsed time (decay ≈ 1). -/
theorem update_topic_weight_fresh_blend (t : ℚ) (ht : 0 ≤ t) :
    |(update_topic_weight TopicNode.init (4/5) t).trending_score - 2/5| ≤ t / 25 := by
  have hpos : (0:ℚ) < 1 + (1/10) * t := by linarith
  unfold update_topic_weight update_trending update_engagement TopicNode.init
  dsimp only
  rcases le_total (1 / (1 + (1/10) * t)) (1/10) with hc | hc
  · rw [max_eq_left hc]
    have h90 : (90:ℚ) ≤ t := by
      rw [div_le_div_iff₀ hpos (by norm_num)] at hc
      linarith
    rw [abs_le]
    constructor <;> linarith
  · rw [max_eq_right hc]
    have hd1 : 1 / (1 + (1/10) * t) ≤ 1 := by
      rw [div_le_one hpos]
      linarith
    have hdenom : (1 / (1 + (1/10) * t)) * (1 + (1/10) * t) = 1 :=
      div_mul_cancel₀ 1 (ne_of_gt hpos)
    have hkey : 0 ≤ (1 - 1 / (1 + (1/10) * t)) * t :=
      mul_nonneg (sub_nonneg.2 hd1) ht
    rw [abs_le]
    constructor <;> nlinarith [hdenom, hkey, hd1, ht]

/-- C7 witness: at elapsed time 0 the blend theorem pins the resulting
trending score to exactly 0.4. -/
theorem update_topic_weight_fresh_blend_witness :
    |(update_topic_weight TopicNode.init (4/5) 0).trending_score - 2/5| ≤ 0 / 25 :=
  update_topic_weight_fresh_blend 0 le_rfl

/-- C8: starting a new view while one is active first flushes (stops) the
prior view; stopping an active view returns the tracked content id with
`view_time = elapsed − total paused time` clamped at 0, where a running
pause is closed into the paused total first; and the tracker tracks at
most one content id: after a start it is the new id, after a stop none. -/
theorem attention_tracker_flush_and_stop (s : AttentionTracker) (cid new_id : String)
    (now : ℚ) (hact : s.active = true) (hcur : s.current_content_id = some cid)
    (hne : cid ≠ "") :
    start_viewing s new_id now = start_viewing (stop_viewing s now).2 new_id now ∧
    (stop_viewing s now).1 =
      (some cid,
        max 0 ((now - s.view_start_time)
          - (s.total_pause_time + (if s.paused then now - s.pause_start_time else 0)))) ∧
    (start_viewing s new_id now).current_content_id = some new_id ∧
    (stop_viewing s now).2.current_content_id = none ∧
    (stop_viewing s now).2.active = false := by
  have htr : truthyId (some cid) = true := by
    simp [truthyId, hne]
  cases hp : s.paused
  · simp [stop_viewing, start_viewing, resume, hact, hcur, htr, hp, truthyId, hne]
  · simp [stop_viewing, start_viewing, resume, hact, hcur, htr, hp, truthyId, hne]

/-- C8 witness: the tracker theorem applied to a concrete paused session:
started at 10, paused from 12, stopped at 15 — three paused seconds, view
time 2. -/
theorem attention_tracker_flush_and_stop_witness :
    (stop_viewing (pause (start_viewing AttentionTracker.init "post1" 10) 12) 15).1 =
      (some "post1", max 0 ((15 - 10) - (0 + (15 - 12)))) := by
  have hstate :
      pause (start_viewing AttentionTracker.init "post1" 10) 12 =
        { current_content_id := some "post1", view_start_time := 10, active := true
          paused := true, pause_start_time := 12, total_pause_time := 0 } := by
    simp [pause, start_viewing, AttentionTracker.init, truthyId]
  have h := attention_tracker_flush_and_stop
    (pause (start_viewing AttentionTracker.init "post1" 10) 12) "post1" "other" 15
    (by rw [hstate]) (by rw [hstate]) (by decide)
  rw [hstate] at h ⊢
  exact h.2.1

/-- C9: `next_item` advances the position when not at the last item (no
refresh); at the last item (or on an empty window) it performs exactly one
refresh and returns nothing only if the window is still empty; and with a
10-item window of size 10, eleven `next_item` calls perform exactly one
refresh. -/
theorem feed_next_refresh (α : Type) (latest : List α) (s : ContentFeed α) :
    (s.feed_position + 1 < s.current_feed.length →
      next_item latest s =
        (s.current_feed[s.feed_position + 1]?,
          { current_feed := s.current_feed, feed_position := s.feed_position + 1 }, 0)) ∧
    (¬ (s.feed_position + 1 < s.current_feed.length) →
      (next_item latest s).2.2 = 1 ∧
      (latest = [] → (next_item latest s).1 = none)) ∧
    (run_next (List.range 10) 11 { current_feed := List.range 10, feed_position := 0 }).2
      = 1 := by
  refine ⟨fun h => ?_, fun h => ⟨?_, fun hl => ?_⟩, ?_⟩
  · simp only [next_item, if_pos h]
  · simp only [next_item, if_neg h, refresh_feed]
    split <;> rfl
  · subst hl
    simp only [next_item, if_neg h, refresh_feed, List.isEmpty_nil, if_pos]
  · rfl

/-- C9 witness: the cursor theorem applied to a two-item window at
position 0 (advance, no refresh) — the closed scenario conjunct comes with
it. -/
theorem feed_next_refresh_witness :
    next_item [5] { current_feed := [7, 8], feed_position := 0 } =
      (([7, 8] : List ℕ)[0 + 1]?, { current_feed := [7, 8], feed_position := 0 + 1 }, 0) ∧
    (run_next (List.range 10) 11 { current_feed := List.range 10, feed_position := 0 }).2
      = 1 := by
  have h := feed_next_refresh ℕ [5] { current_feed := [7, 8], feed_position := 0 }
  exact ⟨h.1 (by norm_num), h.2.2⟩

/-- C10 witness: a store holding a record with 7 likes and no views. -/
theorem zero_view_metrics_total_witness :
    (get_content_metrics [("x", ⟨0, 5, 7⟩)] "x").avg_view_time = 0 ∧
    (get_content_metrics [("x", ⟨0, 5, 7⟩)] "x").likes_per_view = 0 ∧
    ∀ (tvt : ℚ) (likes : ℕ), get_engagement_metrics 0 tvt likes = (0, 0) :=
  zero_view_metrics_total [("x", ⟨0, 5, 7⟩)] "x" rfl

end KGSpec
